import Mathlib

/-!
Shallow embedding of `src/useForm.ts` (the `@lockvoid/vue-form` composable,
the version with validation modes `"change" | "submit" | "blur"` and the
`hasSubmittedOnce` flag).  Field values are an opaque type parameter `V`;
the valibot schema is modelled as an opaque function from the current value
map to a parse result (success flag plus a list of issues), which is the
full surface the composable consumes from the validation library.
JavaScript objects used as string-keyed maps are modelled as association
lists with JavaScript assignment semantics (`setKey` updates in place or
appends, `fromList` folds entries left to right so a later duplicate key
wins, as `Object.assign` does).
-/

namespace VueForm

/-- The `validationMode` option: `'change' | 'submit' | 'blur'`. -/
inductive Mode where
  | change
  | submit
  | blur
deriving DecidableEq, Repr

/-- A JavaScript value sitting in an issue-path segment's `key` field:
either a string, or some non-string value of which only truthiness matters
to the code (`(leaf.key ?? leaf) || ...` and the `typeof key === 'string'`
guard). -/
inductive KeyV where
  | str (s : String)
  | other (truthy : Bool)
deriving DecidableEq, Repr

/-- JavaScript truthiness of a candidate key: the empty string is falsy,
non-string values carry their own truthiness. -/
def KeyV.truthy : KeyV → Bool
  | .str s => !(s = "")
  | .other b => b

/-- One segment of an issue's path.  `key = none` models a segment whose
`key` field is `undefined` or `null` (both trigger `??` in the source). -/
structure Seg where
  key : Option KeyV
deriving DecidableEq, Repr

/-- One validation issue as consumed by `fillErrorsFromIssues`: a path and
a message.  `message = none` models an absent message and `some ""` an
empty one; both are falsy, so `issue.message || 'Invalid'` replaces them. -/
structure Issue where
  path : List Seg
  message : Option String
deriving DecidableEq, Repr

/-- Result of `v.safeParse(schema, values)`: a success flag and the issue
list (`issues` is `undefined` on success in valibot; modelled as `[]`). -/
structure ParseResult where
  success : Bool
  issues : List Issue
deriving Repr

/-- JavaScript object property assignment `m[k] = v` on a string-keyed
object: update the existing entry in place, else append. -/
def setKey {A : Type} : List (String × A) → String → A → List (String × A)
  | [], k, v => [(k, v)]
  | (k', v') :: t, k, v =>
      if k' = k then (k', v) :: t else (k', v') :: setKey t k v

/-- JavaScript property read `m[k]`: `none` models `undefined`. -/
def lookupKey {A : Type} (k : String) : List (String × A) → Option A
  | [] => none
  | (k', v) :: t => if k' = k then some v else lookupKey k t

/-- Build an object from entries in order (`{...init}` / `Object.assign`
on a fresh object): a later duplicate key overwrites an earlier one. -/
def fromList {A : Type} (l : List (String × A)) : List (String × A) :=
  l.foldl (fun m kv => setKey m kv.1 kv.2) []

/-- `issue.message || 'Invalid'`: an absent or empty message falls back to
the literal `"Invalid"`. -/
def messageOr : Option String → String
  | some s => if s = "" then "Invalid" else s
  | none => "Invalid"

/-- The second and third operands of the key-extraction chain:
`(Array.isArray(path) && path[0]?.key) || 'form'`. -/
def keyFallback (path : List Seg) : KeyV :=
  match path.head? with
  | some s0 =>
      match s0.key with
      | some k => if k.truthy then k else .str "form"
      | none => .str "form"
  | none => .str "form"

/-- The key-extraction chain of `fillErrorsFromIssues`:
`const leaf = path.length ? path[path.length - 1] : undefined;`
`const key = (leaf && (leaf.key ?? leaf)) || (Array.isArray(path) && path[0]?.key) || 'form';`
followed by the `typeof key === 'string'` guard — `none` means the issue is
skipped because the candidate is not a string.  When the deepest segment
has no `key`, the candidate is the segment object itself (truthy,
non-string), so the issue is skipped rather than falling back. -/
def extractKey (path : List Seg) : Option String :=
  let cand : KeyV :=
    match path.getLast? with
    | some leaf =>
        let k1 := leaf.key.getD (KeyV.other true)
        if k1.truthy then k1 else keyFallback path
    | none => keyFallback path
  match cand with
  | .str s => some s
  | .other _ => none

/-- `fillErrorsFromIssues`: clear the whole error map, then for each issue
in order record `message || 'Invalid'` under its extracted key (when that
key is a string), a later issue overwriting an earlier one for the same
key.  The cleared previous map never influences the result, so the model
starts from the empty map. -/
def fillErrorsFromIssues (issues : List Issue) : List (String × String) :=
  issues.foldl
    (fun m issue =>
      match extractKey issue.path with
      | some k => setKey m k (messageOr issue.message)
      | none => m)
    []

/-- Key extraction as the specification words it: "the deepest path
segment's key, else the first segment's key, else the literal key `form`
when no path is present".  Written from the spec sentence, for comparison
with `extractKey`, which is written from the source. -/
def specIssueKey (path : List Seg) : String :=
  match path.getLast?.bind Seg.key with
  | some (.str s) => s
  | _ =>
      match path.head?.bind Seg.key with
      | some (.str s) => s
      | _ => "form"

/-- The validation pass as the specification words it: every issue is
recorded under `specIssueKey`, none is skipped.  Written from the spec
sentence, for comparison with `fillErrorsFromIssues`. -/
def fillErrorsSpec (issues : List Issue) : List (String × String) :=
  issues.foldl (fun m issue => setKey m (specIssueKey issue.path) (messageOr issue.message)) []

/-- The construction-time inputs of `useForm`: the (opaque) schema as the
function `values ↦ v.safeParse(schema, values)`, the initial values, and
the validation mode.  The submit handler is passed separately where
needed. -/
structure Config (V : Type) where
  schema : List (String × V) → ParseResult
  initialValues : List (String × V)
  mode : Mode

/-- The observable state of one cached binding object: a creation stamp
standing for its object identity, and the cached `modelValue`/`value`
fields kept up to date by `_updateBinding` (both fields always hold the
same value in the source, so one field models both). -/
structure BindingState (V : Type) where
  id : Nat
  modelValue : Option V
deriving DecidableEq, Repr

/-- The mutable state owned by one `useForm` controller: the value map,
the error map, the three flags, and the binding cache (insertion-ordered,
as a JavaScript `Map`), plus the counter minting binding identities. -/
structure State (V : Type) where
  values : List (String × V)
  errors : List (String × String)
  isSubmitting : Bool
  hasValidatedOnce : Bool
  hasSubmittedOnce : Bool
  bindings : List (String × BindingState V)
  nextId : Nat
deriving DecidableEq, Repr

/-- State right after `useForm(options)` returns: values spread from the
initial values, `hasValidatedOnce = (validationMode === 'change')`, and —
only in `"change"` mode — errors initialised from a validation pass over
the initial values. -/
def initState {V : Type} (cfg : Config V) : State V :=
  let vals := fromList cfg.initialValues
  { values := vals
    errors :=
      if cfg.mode = Mode.change then fillErrorsFromIssues (cfg.schema vals).issues else []
    isSubmitting := false
    hasValidatedOnce := decide (cfg.mode = Mode.change)
    hasSubmittedOnce := false
    bindings := []
    nextId := 0 }

/-- The `parseResult` computed: `{ success: true }` while the mode is
`"submit"` or `"blur"` and `hasValidatedOnce` is still false, otherwise a
live parse of the current values. -/
def parseResult {V : Type} (cfg : Config V) (s : State V) : ParseResult :=
  if (cfg.mode = Mode.submit ∨ cfg.mode = Mode.blur) ∧ s.hasValidatedOnce = false then
    { success := true, issues := [] }
  else cfg.schema s.values

/-- The `isInvalid` computed: negation of `parseResult.success`. -/
def isInvalid {V : Type} (cfg : Config V) (s : State V) : Bool :=
  !(parseResult cfg s).success

/-- `recomputeErrors`: parse the current values and refill the error map
from the resulting issues. -/
def recomputeErrors {V : Type} (cfg : Config V) (s : State V) : State V :=
  { s with errors := fillErrorsFromIssues (cfg.schema s.values).issues }

/-- `getValue(name)`. -/
def getValue {V : Type} (s : State V) (name : String) : Option V :=
  lookupKey name s.values

/-- The `binding._updateBinding()` call inside `setValue`: when a binding
for this field exists, refresh its cached `modelValue` from the current
values. -/
def updateBindingFor {V : Type} (s : State V) (name : String) : State V :=
  match lookupKey name s.bindings with
  | some b =>
      { s with bindings := setKey s.bindings name { b with modelValue := getValue s name } }
  | none => s

/-- `setValue(name, value)`: write the value, refresh the field's binding,
then revalidate when mode is `"change"`, or when mode is `"submit"` and
`hasSubmittedOnce` is true.  The code reads `hasSubmittedOnce.value` after
the binding refresh, which never writes that flag, so reading it from `s`
is the same value. -/
def setValue {V : Type} (cfg : Config V) (s : State V) (name : String) (value : V) : State V :=
  if cfg.mode = Mode.change then
    recomputeErrors cfg (updateBindingFor { s with values := setKey s.values name value } name)
  else if cfg.mode = Mode.submit ∧ s.hasSubmittedOnce = true then
    recomputeErrors cfg (updateBindingFor { s with values := setKey s.values name value } name)
  else updateBindingFor { s with values := setKey s.values name value } name

/-- `bind(name)`: return the cached binding when present, else create one
(snapshotting the field's current value into `modelValue`), cache it and
return it.  The returned `BindingState` is the object the caller holds;
its `id` stands for the object reference. -/
def bind {V : Type} (s : State V) (name : String) : BindingState V × State V :=
  match lookupKey name s.bindings with
  | some b => (b, s)
  | none =>
      let b : BindingState V := { id := s.nextId, modelValue := getValue s name }
      (b, { s with bindings := setKey s.bindings name b, nextId := s.nextId + 1 })

/-- The binding's `onBlur` handler: funnel the event value through
`setValue`, then — only in `"blur"` mode — set `hasValidatedOnce` and
force a revalidation pass. -/
def blurEvent {V : Type} (cfg : Config V) (s : State V) (name : String) (value : V) : State V :=
  let s1 := setValue cfg s name value
  if cfg.mode = Mode.blur then
    recomputeErrors cfg { s1 with hasValidatedOnce := true }
  else s1

/-- Outcome of the synchronous prefix of `submit()`, up to (and not
including) awaiting the handler: skipped because already submitting,
stopped on failed validation, or started with the bound-values snapshot
that will be passed to the handler. -/
inductive StartOutcome (V : Type) where
  | skipped (s : State V)
  | invalid (s : State V)
  | started (args : List (String × Option V)) (s : State V)
deriving DecidableEq, Repr

/-- The snapshot built inside `submit()`:
`for (const fieldName of Array.from(bindings.keys())) boundValues[fieldName] = values[fieldName]`
— one entry per bound field in binding-insertion order, holding that
field's current value (`none` models `undefined`). -/
def boundArgs {V : Type} (s : State V) : List (String × Option V) :=
  s.bindings.map (fun kv => (kv.1, lookupKey kv.1 s.values))

/-- The state of a non-skipped `submit()` call right after
`hasValidatedOnce.value = true; hasSubmittedOnce.value = true;
recomputeErrors();`. -/
def submitPost {V : Type} (cfg : Config V) (s : State V) : State V :=
  recomputeErrors cfg { s with hasValidatedOnce := true, hasSubmittedOnce := true }

/-- The synchronous prefix of `submit()`: no-op when `isSubmitting`; else
set both flags, recompute errors, re-parse, and either stop on failure or
set `isSubmitting` and produce the bound-values snapshot. -/
def submitStart {V : Type} (cfg : Config V) (s : State V) : StartOutcome V :=
  if s.isSubmitting then .skipped s
  else if (cfg.schema (submitPost cfg s).values).success then
    .started (boundArgs (submitPost cfg s)) { submitPost cfg s with isSubmitting := true }
  else .invalid (submitPost cfg s)

/-- The `finally` block of `submit()`: `isSubmitting.value = false`. -/
def submitFinish {V : Type} (s : State V) : State V :=
  { s with isSubmitting := false }

/-- A whole `submit()` call, with the injected handler modelled as a
function from the snapshot to `Except E Unit` (`Except.error` models a
rejection).  Returns what `submit()`'s promise does (`Except.error e`
models the propagated rejection) together with the state after the
`finally` block ran. -/
def submitRun {V E : Type} (cfg : Config V)
    (handler : List (String × Option V) → Except E Unit) (s : State V) :
    Except E Unit × State V :=
  match submitStart cfg s with
  | .skipped s1 => (Except.ok (), s1)
  | .invalid s1 => (Except.ok (), s1)
  | .started args s1 =>
      match handler args with
      | .ok _ => (Except.ok (), submitFinish s1)
      | .error e => (Except.error e, submitFinish s1)

/-- `setErrors(next)`: clear the error map, then `Object.assign` the given
entries. -/
def setErrors {V : Type} (s : State V) (next : List (String × String)) : State V :=
  { s with errors := fromList next }

/-- `reset(nextValues?)`: replace the value map wholesale (default: the
original initial values), restore `hasValidatedOnce` to its mode-dependent
initial state, clear `hasSubmittedOnce` and the errors, and — only in
`"change"` mode — revalidate the new values.  The binding cache is not
touched. -/
def reset {V : Type} (cfg : Config V) (s : State V)
    (next : Option (List (String × V))) : State V :=
  let vals := fromList (next.getD cfg.initialValues)
  let s1 := { s with
    values := vals
    hasValidatedOnce := decide (cfg.mode = Mode.change)
    hasSubmittedOnce := false
    errors := [] }
  if cfg.mode = Mode.change then recomputeErrors cfg s1 else s1

/-- One externally observable operation on the controller.  `submit()` is
split into its synchronous prefix and its `finally` epilogue so that
states with a pending handler (and everything interleaved with it) are
reachable. -/
inductive Op (V : Type) where
  | setVal (name : String) (value : V)
  | blurEv (name : String) (value : V)
  | bindF (name : String)
  | submitStartOp
  | submitFinishOp
  | resetOp (next : Option (List (String × V)))
  | setErrorsOp (next : List (String × String))

/-- Whether an operation is a `reset` call. -/
def Op.isReset {V : Type} : Op V → Bool
  | .resetOp _ => true
  | _ => false

/-- The state after the synchronous prefix of `submit()`, whatever its
outcome. -/
def stateAfterStart {V : Type} (cfg : Config V) (s : State V) : State V :=
  match submitStart cfg s with
  | .skipped s1 => s1
  | .invalid s1 => s1
  | .started _ s1 => s1

/-- Apply one operation to the state. -/
def runOp {V : Type} (cfg : Config V) (s : State V) : Op V → State V
  | .setVal n v => setValue cfg s n v
  | .blurEv n v => blurEvent cfg s n v
  | .bindF n => (bind s n).2
  | .submitStartOp => stateAfterStart cfg s
  | .submitFinishOp => submitFinish s
  | .resetOp next => reset cfg s next
  | .setErrorsOp next => setErrors s next

/-- Apply a sequence of operations from left to right. -/
def runOps {V : Type} (cfg : Config V) (s : State V) (ops : List (Op V)) : State V :=
  ops.foldl (runOp cfg) s

/-- The liveness property of the binding cache: every cached binding's
`modelValue` equals the field's current value. -/
def BindingsLive {V : Type} (s : State V) : Prop :=
  ∀ n b, lookupKey n s.bindings = some b → b.modelValue = getValue s n

/-- The identity (creation stamp) of the binding cached for a field, when
one exists. -/
def idOf {V : Type} (s : State V) (n : String) : Option Nat :=
  (lookupKey n s.bindings).map BindingState.id

/-- Concrete form: schema that always succeeds, one initial field
`a = "x"`, mode `"submit"`. -/
def cfgOkA : Config String :=
  { schema := fun _ => { success := true, issues := [] }
    initialValues := [("a", "x")]
    mode := Mode.submit }

/-- The state of `cfgOkA`'s form after `bind('a')`. -/
def sBoundA : State String := (bind (initState cfgOkA) "a").2

/-- The snapshot `submit()` hands to the handler from `sBoundA`. -/
def argsA : List (String × Option String) := [("a", some "x")]

/-- The state of `cfgOkA`'s form while the submit handler is pending. -/
def sStartedA : State String :=
  { values := [("a", "x")]
    errors := []
    isSubmitting := true
    hasValidatedOnce := true
    hasSubmittedOnce := true
    bindings := [("a", { id := 0, modelValue := some "x" })]
    nextId := 1 }

/-- A state with a submit in flight. -/
def sSubmittingA : State String :=
  { initState cfgOkA with isSubmitting := true }

/-- A submit handler that always rejects. -/
def handlerBoom : List (String × Option String) → Except String Unit :=
  fun _ => Except.error "boom"

/-- Concrete form: schema that always fails with one pathless issue, no
initial values, mode `"submit"`. -/
def cfgFail : Config String :=
  { schema := fun _ => { success := false, issues := [{ path := [], message := some "bad" }] }
    initialValues := []
    mode := Mode.submit }

/-- Concrete form: schema that always succeeds, one initial field
`a = "0"`, mode `"submit"`. -/
def cfgC8 : Config String :=
  { schema := fun _ => { success := true, issues := [] }
    initialValues := [("a", "0")]
    mode := Mode.submit }

/-- Bind `a`, then set it to `"1"` — no reset. -/
def opsLiveA : List (Op String) := [Op.bindF "a", Op.setVal "a" "1"]

/-- Bind `a`, set it to `"1"`, then `reset()`. -/
def opsStaleA : List (Op String) := [Op.bindF "a", Op.setVal "a" "1", Op.resetOp none]

/-- An issue whose deepest path segment has no `key` while the first one
has key `"a"`. -/
def issueNoLeafKey : Issue :=
  { path := [{ key := some (KeyV.str "a") }, { key := none }], message := some "m" }

variable {V : Type}

theorem lookup_setKey {A : Type} (m : List (String × A)) (k k' : String) (v : A) :
    lookupKey k (setKey m k' v) = if k' = k then some v else lookupKey k m := by
  induction m with
  | nil => by_cases h : k' = k <;> simp [setKey, lookupKey, h]
  | cons hd t ih =>
    obtain ⟨k0, v0⟩ := hd
    by_cases h0 : k0 = k'
    · subst h0
      by_cases h1 : k0 = k <;> simp [setKey, lookupKey, h1]
    · by_cases h1 : k0 = k
      · subst h1
        have h2 : ¬k' = k0 := fun hh => h0 hh.symm
        simp [setKey, lookupKey, h0, h2]
      · simp [setKey, lookupKey, h0, h1, ih]

theorem lookup_mapFst {A B : Type} (f : String → B) (l : List (String × A)) (n : String) :
    lookupKey n (l.map (fun kv => (kv.1, f kv.1))) =
      if n ∈ l.map Prod.fst then some (f n) else none := by
  induction l with
  | nil => simp [lookupKey]
  | cons hd t ih =>
    obtain ⟨k0, v0⟩ := hd
    by_cases h : k0 = n
    · subst h
      simp [lookupKey]
    · simp only [List.map_cons, lookupKey, h, if_false]
      rw [ih]
      by_cases hm : n ∈ t.map Prod.fst <;>
        simp [List.mem_cons, hm, Ne.symm h]

theorem updateBindingFor_values (s : State V) (n : String) :
    (updateBindingFor s n).values = s.values := by
  cases h : lookupKey n s.bindings <;> simp [updateBindingFor, h]

theorem updateBindingFor_errors (s : State V) (n : String) :
    (updateBindingFor s n).errors = s.errors := by
  cases h : lookupKey n s.bindings <;> simp [updateBindingFor, h]

theorem updateBindingFor_hasSubmittedOnce (s : State V) (n : String) :
    (updateBindingFor s n).hasSubmittedOnce = s.hasSubmittedOnce := by
  cases h : lookupKey n s.bindings <;> simp [updateBindingFor, h]

theorem setValue_values (cfg : Config V) (s : State V) (n : String) (v : V) :
    (setValue cfg s n v).values = setKey s.values n v := by
  unfold setValue
  split
  · simpa [recomputeErrors] using updateBindingFor_values _ n
  · split
    · simpa [recomputeErrors] using updateBindingFor_values _ n
    · simpa using updateBindingFor_values _ n

theorem setValue_bindings (cfg : Config V) (s : State V) (n : String) (v : V) :
    (setValue cfg s n v).bindings =
      (updateBindingFor { s with values := setKey s.values n v } n).bindings := by
  unfold setValue
  split
  · rfl
  · split <;> rfl

theorem blurEvent_values (cfg : Config V) (s : State V) (n : String) (v : V) :
    (blurEvent cfg s n v).values = (setValue cfg s n v).values := by
  unfold blurEvent
  split <;> rfl

theorem blurEvent_bindings (cfg : Config V) (s : State V) (n : String) (v : V) :
    (blurEvent cfg s n v).bindings = (setValue cfg s n v).bindings := by
  unfold blurEvent
  split <;> rfl

theorem stateAfterStart_values (cfg : Config V) (s : State V) :
    (stateAfterStart cfg s).values = s.values := by
  unfold stateAfterStart submitStart
  by_cases h : s.isSubmitting = true
  · simp [h]
  · by_cases h2 : (cfg.schema s.values).success = true <;>
      simp [h, h2, submitPost, recomputeErrors]

theorem stateAfterStart_bindings (cfg : Config V) (s : State V) :
    (stateAfterStart cfg s).bindings = s.bindings := by
  unfold stateAfterStart submitStart
  by_cases h : s.isSubmitting = true
  · simp [h]
  · by_cases h2 : (cfg.schema s.values).success = true <;>
      simp [h, h2, submitPost, recomputeErrors]

theorem reset_bindings (cfg : Config V) (s : State V) (next : Option (List (String × V))) :
    (reset cfg s next).bindings = s.bindings := by
  unfold reset
  split <;> rfl

theorem bind_lookup (s : State V) (n : String) :
    lookupKey n (bind s n).2.bindings = some (bind s n).1 := by
  unfold bind
  cases h : lookupKey n s.bindings with
  | some b => simp [h]
  | none => simp [h, lookup_setKey]

theorem bind_of_lookup (s : State V) (n : String) (b : BindingState V)
    (h : lookupKey n s.bindings = some b) : bind s n = (b, s) := by
  unfold bind
  rw [h]

theorem lookup_updateBindingFor (s : State V) (m n : String) :
    lookupKey n (updateBindingFor s m).bindings =
      if m = n then
        (lookupKey n s.bindings).map (fun c => { c with modelValue := getValue s m })
      else lookupKey n s.bindings := by
  unfold updateBindingFor
  cases hc : lookupKey m s.bindings with
  | none =>
      by_cases hmn : m = n
      · subst hmn
        simp [hc]
      · simp [hmn]
  | some c =>
      simp only []
      rw [lookup_setKey]
      by_cases hmn : m = n
      · subst hmn
        simp [hc]
      · simp [hmn]

theorem updateBindingFor_idOf (s : State V) (m n : String) :
    (lookupKey n (updateBindingFor s m).bindings).map BindingState.id =
      (lookupKey n s.bindings).map BindingState.id := by
  rw [lookup_updateBindingFor]
  by_cases hmn : m = n
  · subst hmn
    cases hc : lookupKey m s.bindings <;> simp [hc]
  · simp [hmn]

theorem idOf_runOp (cfg : Config V) (s : State V) (op : Op V) (n : String) :
    idOf (runOp cfg s op) n = idOf s n ∨ idOf s n = none := by
  cases op with
  | setVal m v =>
      left
      unfold idOf
      show (lookupKey n (setValue cfg s m v).bindings).map _ = _
      rw [setValue_bindings]
      exact updateBindingFor_idOf _ m n
  | blurEv m v =>
      left
      unfold idOf
      show (lookupKey n (blurEvent cfg s m v).bindings).map _ = _
      rw [blurEvent_bindings, setValue_bindings]
      exact updateBindingFor_idOf _ m n
  | bindF m =>
      unfold idOf
      show (lookupKey n (bind s m).2.bindings).map _ = _ ∨ _
      unfold bind
      cases hc : lookupKey m s.bindings with
      | some b => left; rfl
      | none =>
          by_cases hmn : m = n
          · subst hmn
            right
            rw [hc]
            rfl
          · left
            simp only []
            rw [lookup_setKey]
            simp [hmn]
  | submitStartOp =>
      left
      unfold idOf
      show (lookupKey n (stateAfterStart cfg s).bindings).map _ = _
      rw [stateAfterStart_bindings]
  | submitFinishOp => left; rfl
  | resetOp next =>
      left
      unfold idOf
      show (lookupKey n (reset cfg s next).bindings).map _ = _
      rw [reset_bindings]
  | setErrorsOp next => left; rfl

theorem idOf_runOps (cfg : Config V) (s : State V) (ops : List (Op V)) (n : String) (i : Nat)
    (h : idOf s n = some i) : idOf (runOps cfg s ops) n = some i := by
  induction ops generalizing s with
  | nil => exact h
  | cons op t ih =>
      show idOf (runOps cfg (runOp cfg s op) t) n = some i
      rcases idOf_runOp cfg s op n with heq | hnone
      · exact ih (runOp cfg s op) (heq.trans h)
      · rw [hnone] at h
        cases h

theorem live_congr {s t : State V} (hv : t.values = s.values) (hb : t.bindings = s.bindings)
    (h : BindingsLive s) : BindingsLive t := by
  intro n b hbb
  rw [hb] at hbb
  have h2 := h n b hbb
  unfold getValue at h2 ⊢
  rw [hv]
  exact h2

theorem live_setValue (cfg : Config V) (s : State V) (m : String) (v : V)
    (hs : BindingsLive s) : BindingsLive (setValue cfg s m v) := by
  intro n b hb
  rw [setValue_bindings, lookup_updateBindingFor] at hb
  have hval : getValue (setValue cfg s m v) n = lookupKey n (setKey s.values m v) := by
    unfold getValue
    rw [setValue_values]
  rw [hval, lookup_setKey]
  by_cases hmn : m = n
  · subst hmn
    rw [if_pos rfl] at hb ⊢
    have hmv : lookupKey m (setKey s.values m v) = some v := by
      rw [lookup_setKey]
      simp
    cases hc : lookupKey m s.bindings with
    | none =>
        rw [show lookupKey m ({ s with values := setKey s.values m v } : State V).bindings
              = lookupKey m s.bindings from rfl, hc] at hb
        cases hb
    | some c =>
        rw [show lookupKey m ({ s with values := setKey s.values m v } : State V).bindings
              = lookupKey m s.bindings from rfl, hc] at hb
        injection hb with hb'
        subst hb'
        show getValue ({ s with values := setKey s.values m v } : State V) m = some v
        unfold getValue
        exact hmv
  · rw [if_neg hmn] at hb
    rw [if_neg hmn]
    exact hs n b hb

theorem live_initState (cfg : Config V) : BindingsLive (initState cfg) := by
  intro n b hb
  have hnil : (initState cfg).bindings = [] := rfl
  rw [hnil] at hb
  cases hb

theorem live_runOp (cfg : Config V) (s : State V) (op : Op V)
    (hop : op.isReset = false) (hs : BindingsLive s) : BindingsLive (runOp cfg s op) := by
  cases op with
  | setVal m v => exact live_setValue cfg s m v hs
  | blurEv m v =>
      exact live_congr (blurEvent_values cfg s m v) (blurEvent_bindings cfg s m v)
        (live_setValue cfg s m v hs)
  | bindF m =>
      intro n b hb
      revert hb
      show lookupKey n (bind s m).2.bindings = some b → b.modelValue = getValue (bind s m).2 n
      cases hc : lookupKey m s.bindings with
      | some c =>
          rw [bind_of_lookup s m c hc]
          exact fun hb => hs n b hb
      | none =>
          unfold bind
          rw [hc]
          simp only []
          intro hb
          rw [lookup_setKey] at hb
          by_cases hmn : m = n
          · subst hmn
            rw [if_pos rfl] at hb
            injection hb with hb'
            subst hb'
            rfl
          · rw [if_neg hmn] at hb
            exact hs n b hb
  | submitStartOp =>
      exact live_congr (stateAfterStart_values cfg s) (stateAfterStart_bindings cfg s) hs
  | submitFinishOp => exact live_congr rfl rfl hs
  | resetOp next => simp [Op.isReset] at hop
  | setErrorsOp next => exact live_congr rfl rfl hs

theorem live_runOps (cfg : Config V) (s : State V) (ops : List (Op V))
    (hops : ∀ op ∈ ops, op.isReset = false) (hs : BindingsLive s) :
    BindingsLive (runOps cfg s ops) := by
  induction ops generalizing s with
  | nil => exact hs
  | cons op t ih =>
      show BindingsLive (runOps cfg (runOp cfg s op) t)
      exact ih (runOp cfg s op) (fun o ho => hops o (List.mem_cons_of_mem op ho))
        (live_runOp cfg s op (hops op (List.mem_cons_self op t)) hs)

theorem fill_foldl_lookup (issues : List Issue) (m : List (String × String)) (k : String) :
    lookupKey k (issues.foldl
      (fun acc issue =>
        match extractKey issue.path with
        | some k0 => setKey acc k0 (messageOr issue.message)
        | none => acc) m) =
      match (issues.filter (fun i => extractKey i.path = some k)).getLast? with
      | some i => some (messageOr i.message)
      | none => lookupKey k m := by
  induction issues generalizing m with
  | nil => rfl
  | cons i t ih =>
      rw [List.foldl_cons, ih, List.filter_cons]
      by_cases hp : extractKey i.path = some k
      · rw [if_pos (by simp [hp])]
        cases hft : t.filter (fun i => extractKey i.path = some k) with
        | nil => simp [hp, lookup_setKey]
        | cons j r =>
            rw [List.getLast?_cons_cons]
            cases hg : (j :: r).getLast? with
            | none => exact absurd hg (by simp)
            | some jj => rfl
      · rw [if_neg (by simp [hp])]
        cases hft : t.filter (fun i => extractKey i.path = some k) with
        | nil =>
            cases he : extractKey i.path with
            | none => simp
            | some k0 =>
                have hk0 : ¬k0 = k := fun hk => hp (by rw [he, hk])
                simp [lookup_setKey, hk0]
        | cons j r =>
            cases hg : (j :: r).getLast? with
            | none => exact absurd hg (by simp)
            | some jj => rfl

theorem submitStart_started_inv (cfg : Config V) (s : State V)
    (args : List (String × Option V)) (s' : State V)
    (h : submitStart cfg s = .started args s') :
    s.isSubmitting = false ∧
    (cfg.schema s.values).success = true ∧
    args = boundArgs s ∧
    s' = { s with
      hasValidatedOnce := true
      hasSubmittedOnce := true
      errors := fillErrorsFromIssues (cfg.schema s.values).issues
      isSubmitting := true } := by
  unfold submitStart at h
  by_cases hs : s.isSubmitting = true
  · rw [if_pos hs] at h
    simp at h
  · rw [if_neg hs] at h
    simp only [Bool.not_eq_true] at hs
    by_cases hok : (cfg.schema (submitPost cfg s).values).success = true
    · rw [if_pos hok] at h
      injection h with h1 h2
      exact ⟨hs, hok, h1.symm, h2.symm⟩
    · rw [if_neg hok] at h
      simp at h

/-- C1: whenever a `submit()` call passes revalidation and invokes the
handler, the snapshot it passes assigns, to exactly the field names bound
via `bind()` before the invocation, those fields' current values; field
names never bound — initial values included — do not appear in it. -/
theorem C1_submit_bound_snapshot (cfg : Config V) (s : State V)
    (args : List (String × Option V)) (s' : State V)
    (h : submitStart cfg s = .started args s') :
    args.map Prod.fst = s.bindings.map Prod.fst ∧
    (∀ n, n ∈ s.bindings.map Prod.fst → lookupKey n args = some (getValue s n)) ∧
    (∀ n, n ∉ s.bindings.map Prod.fst → lookupKey n args = none) := by
  obtain ⟨-, -, hargs, -⟩ := submitStart_started_inv cfg s args s' h
  subst hargs
  refine ⟨?_, ?_, ?_⟩
  · show (s.bindings.map fun kv => (kv.1, lookupKey kv.1 s.values)).map Prod.fst = _
    rw [List.map_map]
    rfl
  · intro n hn
    show lookupKey n (s.bindings.map fun kv => (kv.1, lookupKey kv.1 s.values)) = _
    rw [lookup_mapFst (fun n => lookupKey n s.values), if_pos hn]
    rfl
  · intro n hn
    show lookupKey n (s.bindings.map fun kv => (kv.1, lookupKey kv.1 s.values)) = none
    rw [lookup_mapFst (fun n => lookupKey n s.values), if_neg hn]

/-- C1 witness: on the concrete form `cfgOkA` with only `a` bound, the
snapshot holds `a`'s current value and nothing for the unbound `b`. -/
theorem C1_witness :
    lookupKey "a" argsA = some (getValue sBoundA "a") ∧ lookupKey "b" argsA = none :=
  ⟨(C1_submit_bound_snapshot cfgOkA sBoundA argsA sStartedA (by decide)).2.1 "a" (by decide),
   (C1_submit_bound_snapshot cfgOkA sBoundA argsA sStartedA (by decide)).2.2 "b" (by decide)⟩

/-- C2: `setValue` always writes the value, and recomputes the error map
exactly when the mode is `"change"`, or the mode is `"submit"` and
`hasSubmittedOnce` is true; in `"blur"` mode, and in `"submit"` mode
before the first submit attempt, the error map is left untouched. -/
theorem C2_setValue_writes_and_revalidates (cfg : Config V) (s : State V)
    (n : String) (v : V) :
    (setValue cfg s n v).values = setKey s.values n v ∧
    (setValue cfg s n v).errors =
      (if cfg.mode = Mode.change ∨ (cfg.mode = Mode.submit ∧ s.hasSubmittedOnce = true)
       then fillErrorsFromIssues (cfg.schema (setKey s.values n v)).issues
       else s.errors) := by
  refine ⟨setValue_values cfg s n v, ?_⟩
  unfold setValue
  by_cases h1 : cfg.mode = Mode.change
  · rw [if_pos h1, if_pos (Or.inl h1)]
    simp [recomputeErrors, updateBindingFor_values]
  · rw [if_neg h1]
    by_cases h2 : cfg.mode = Mode.submit ∧ s.hasSubmittedOnce = true
    · rw [if_pos h2, if_pos (Or.inr h2)]
      simp [recomputeErrors, updateBindingFor_values]
    · rw [if_neg h2, if_neg (fun hc => hc.elim h1 h2)]
      exact updateBindingFor_errors _ n

/-- C3 counterexample: on the concrete `"submit"`-mode form `cfgFail`,
whose schema always fails, the freshly constructed (hence reachable)
state has `hasValidatedOnce = false` — and `isInvalid` is `false`, not
`true` as the claim demands, although validation of the current values
fails. -/
theorem C3_counterexample :
    cfgFail.mode = Mode.submit ∧
    (runOps cfgFail (initState cfgFail) []).hasValidatedOnce = false ∧
    isInvalid cfgFail (runOps cfgFail (initState cfgFail) []) = false ∧
    (cfgFail.schema (runOps cfgFail (initState cfgFail) []).values).success = false :=
  ⟨rfl, by decide, by decide, by decide⟩

/-- C3 amended: in every reachable state, `isInvalid` is FALSE whenever
`hasValidatedOnce` is false and the mode is `"submit"` or `"blur"` (the
form is optimistically treated as valid before interaction); in every
other state it equals the negation of the success of validating the
current values against the schema. -/
theorem C3_amended (cfg : Config V) (ops : List (Op V)) :
    isInvalid cfg (runOps cfg (initState cfg) ops) =
      if (cfg.mode = Mode.submit ∨ cfg.mode = Mode.blur) ∧
          (runOps cfg (initState cfg) ops).hasValidatedOnce = false
      then false
      else !(cfg.schema (runOps cfg (initState cfg) ops).values).success := by
  unfold isInvalid parseResult
  by_cases h : (cfg.mode = Mode.submit ∨ cfg.mode = Mode.blur) ∧
      (runOps cfg (initState cfg) ops).hasValidatedOnce = false
  · rw [if_pos h, if_pos h]
    rfl
  · rw [if_neg h, if_neg h]

/-- C4 counterexample: for an issue whose deepest path segment has no
`key` (first segment keyed `"a"`, message `"m"`), the claim's extraction
rule records the message under `"a"`, but the code skips the issue
entirely — `leaf.key ?? leaf` resolves to the segment object, which fails
the `typeof key === 'string'` guard — leaving the error map empty. -/
theorem C4_counterexample :
    fillErrorsFromIssues [issueNoLeafKey] = [] ∧
    fillErrorsSpec [issueNoLeafKey] = [("a", "m")] :=
  ⟨by decide, by decide⟩

/-- C4 amended: a validation pass clears the error map and processes the
issues in order; an issue contributes under key `k` exactly when the
code's extraction chain (`extractKey`: deepest segment's key when truthy,
else the segment itself; falling back to the first segment's truthy key,
else `"form"`; non-string candidates skipped) yields `k`, the message (or
the fallback `"Invalid"` for an absent or empty message) of the LAST such
issue winning; a pass with no issues leaves the error map empty. -/
theorem C4_amended (issues : List Issue) (k : String) :
    fillErrorsFromIssues [] = ([] : List (String × String)) ∧
    lookupKey k (fillErrorsFromIssues issues) =
      ((issues.filter (fun i => extractKey i.path = some k)).getLast?).map
        (fun i => messageOr i.message) := by
  refine ⟨rfl, ?_⟩
  unfold fillErrorsFromIssues
  rw [fill_foldl_lookup]
  cases hg : (issues.filter (fun i => extractKey i.path = some k)).getLast? <;>
    simp [lookupKey]

/-- C5: a `submit()` call made while `isSubmitting` is true returns
immediately: the controller state is returned unchanged, no revalidation
happens, and the whole call resolves without ever reaching the handler. -/
theorem C5_submit_noop_while_submitting (cfg : Config V) (s : State V)
    (h : s.isSubmitting = true) :
    submitStart cfg s = .skipped s ∧
    ∀ (E : Type) (handler : List (String × Option V) → Except E Unit),
      submitRun cfg handler s = (Except.ok (), s) := by
  have h1 : submitStart cfg s = .skipped s := by
    unfold submitStart
    rw [if_pos h]
  refine ⟨h1, fun E handler => ?_⟩
  unfold submitRun
  rw [h1]

/-- C5 witness: on the concrete in-flight state `sSubmittingA`, `submit()`
is a no-op. -/
theorem C5_witness : submitStart cfgOkA sSubmittingA = .skipped sSubmittingA :=
  (C5_submit_noop_while_submitting cfgOkA sSubmittingA (by decide)).1

/-- C6: a `submit()` call in a non-submitting state sets
`hasValidatedOnce` and `hasSubmittedOnce`, recomputes the errors, and —
when validation of the current values fails — stops there: the recorded
per-field errors stay in the error map, `isSubmitting` stays false, and
the whole call resolves without invoking the handler. -/
theorem C6_submit_invalid_stops (cfg : Config V) (s : State V)
    (h : s.isSubmitting = false)
    (hbad : (cfg.schema s.values).success = false) :
    submitStart cfg s =
      .invalid { s with
        hasValidatedOnce := true
        hasSubmittedOnce := true
        errors := fillErrorsFromIssues (cfg.schema s.values).issues } ∧
    ({ s with
        hasValidatedOnce := true
        hasSubmittedOnce := true
        errors := fillErrorsFromIssues (cfg.schema s.values).issues } : State V).isSubmitting
      = false ∧
    ∀ (E : Type) (handler : List (String × Option V) → Except E Unit),
      submitRun cfg handler s =
        (Except.ok (), { s with
          hasValidatedOnce := true
          hasSubmittedOnce := true
          errors := fillErrorsFromIssues (cfg.schema s.values).issues }) := by
  have hns : ¬s.isSubmitting = true := by simp [h]
  have hbad2 : (cfg.schema (submitPost cfg s).values).success = false := hbad
  have h1 : submitStart cfg s =
      .invalid { s with
        hasValidatedOnce := true
        hasSubmittedOnce := true
        errors := fillErrorsFromIssues (cfg.schema s.values).issues } := by
    unfold submitStart
    rw [if_neg hns, if_neg (by simp [hbad2])]
    rfl
  refine ⟨h1, h, fun E handler => ?_⟩
  unfold submitRun
  rw [h1]

/-- C6 witness: on the concrete form `cfgFail`, whose schema always fails
with one pathless issue, a first `submit()` stops after recording the
issue under the fallback key `"form"`. -/
theorem C6_witness :
    submitStart cfgFail (initState cfgFail) =
      .invalid { initState cfgFail with
        hasValidatedOnce := true
        hasSubmittedOnce := true
        errors := fillErrorsFromIssues (cfgFail.schema (initState cfgFail).values).issues } :=
  (C6_submit_invalid_stops cfgFail (initState cfgFail) rfl rfl).1

theorem submitRun_started (cfg : Config V) (s : State V) (E : Type)
    (handler : List (String × Option V) → Except E Unit)
    (args : List (String × Option V)) (s' : State V)
    (h : submitStart cfg s = .started args s') :
    submitRun cfg handler s =
      (match handler args with
       | .ok _ => (Except.ok (), submitFinish s')
       | .error e => (Except.error e, submitFinish s')) := by
  unfold submitRun
  rw [h]

/-- C7: once the handler is reached, a rejection propagates unchanged to
the caller of `submit()`; in both the success and the failure case the
state the handler observes has `isSubmitting = true` and the state after
the call has `isSubmitting = false` (the `finally` cleanup). -/
theorem C7_submit_handler_propagation (cfg : Config V) (s : State V) (E : Type)
    (handler : List (String × Option V) → Except E Unit)
    (args : List (String × Option V)) (s' : State V)
    (h : submitStart cfg s = .started args s') :
    s'.isSubmitting = true ∧
    (submitRun cfg handler s).1 = Except.map (fun _ => ()) (handler args) ∧
    (submitRun cfg handler s).2 = submitFinish s' ∧
    (submitFinish s').isSubmitting = false := by
  obtain ⟨-, -, -, hs'⟩ := submitStart_started_inv cfg s args s' h
  refine ⟨?_, ?_, ?_, rfl⟩
  · rw [hs']
  · rw [submitRun_started cfg s E handler args s' h]
    cases hr : handler args <;> simp [Except.map]
  · rw [submitRun_started cfg s E handler args s' h]
    cases hr : handler args <;> rfl

/-- C7 witness: with the always-rejecting handler `handlerBoom` on the
concrete form `cfgOkA`, the rejection comes back from `submit()` and the
in-flight state had `isSubmitting = true`. -/
theorem C7_witness :
    (submitRun cfgOkA handlerBoom sBoundA).1 =
      Except.map (fun _ => ()) (handlerBoom argsA) ∧
    sStartedA.isSubmitting = true :=
  ⟨(C7_submit_handler_propagation cfgOkA sBoundA String handlerBoom argsA sStartedA
      (by decide)).2.1,
   (C7_submit_handler_propagation cfgOkA sBoundA String handlerBoom argsA sStartedA
      (by decide)).1⟩

/-- C8 counterexample: bind `a` (initially `"0"`), set it to `"1"`, then
`reset()`: the value map is back to `"0"` but the binding still exposes
`"1"` — `reset` never refreshes the cached binding values, so the
binding's value is not live after a reset. -/
theorem C8_counterexample :
    lookupKey "a" (runOps cfgC8 (initState cfgC8) opsStaleA).bindings =
      some { id := 0, modelValue := some "1" } ∧
    getValue (runOps cfgC8 (initState cfgC8) opsStaleA) "a" = some "0" ∧
    (some "1" : Option String) ≠ some "0" :=
  ⟨by decide, by decide, by decide⟩

/-- C8 amended: after any sequence of documented operations that contains
no `reset`, every cached binding's exposed value equals the field's
current value in the value map; `reset` replaces the value map but leaves
every cached binding untouched, so after a `reset` a binding's value may
be stale until the next `setValue` on that field. -/
theorem C8_amended_binding_liveness (cfg : Config V) (ops : List (Op V))
    (hops : ∀ op ∈ ops, op.isReset = false) :
    BindingsLive (runOps cfg (initState cfg) ops) ∧
    ∀ (s : State V) (next : Option (List (String × V))),
      (reset cfg s next).bindings = s.bindings :=
  ⟨live_runOps cfg (initState cfg) ops hops (live_initState cfg),
   fun s next => reset_bindings cfg s next⟩

/-- C8 witness: on the reset-free concrete run `opsLiveA`, the binding
cached for `a` exposes the field's current value. -/
theorem C8_witness :
    (⟨0, some "1"⟩ : BindingState String).modelValue =
      getValue (runOps cfgC8 (initState cfgC8) opsLiveA) "a" :=
  (C8_amended_binding_liveness cfgC8 opsLiveA (by decide)).1 "a" ⟨0, some "1"⟩ (by decide)

/-- C9: the binding object returned by `bind(name)` is created on the
first request and cached: after any further sequence of operations, a
second `bind(name)` returns the object with the same identity, and an
immediate re-bind returns the cached object with the state unchanged. -/
theorem C9_bind_stable_identity (cfg : Config V) (s : State V) (n : String)
    (ops : List (Op V)) :
    (bind (runOps cfg (bind s n).2 ops) n).1.id = (bind s n).1.id ∧
    bind (bind s n).2 n = ((bind s n).1, (bind s n).2) := by
  constructor
  · have h0 : idOf (bind s n).2 n = some (bind s n).1.id := by
      unfold idOf
      rw [bind_lookup]
      rfl
    have h1 := idOf_runOps cfg (bind s n).2 ops n (bind s n).1.id h0
    unfold idOf at h1
    cases hc : lookupKey n (runOps cfg (bind s n).2 ops).bindings with
    | none =>
        rw [hc] at h1
        cases h1
    | some b =>
        rw [hc] at h1
        simp only [Option.map_some'] at h1
        rw [bind_of_lookup _ n b hc]
        injection h1
  · exact bind_of_lookup _ n _ (bind_lookup s n)

/-- C10: `setErrors` wholesale-replaces the error map and cannot change
`isInvalid`, which is derived solely from the mode, `hasValidatedOnce`,
the schema and the current values; after a `setErrors` the error map and
`isInvalid` can therefore disagree — concretely, `isInvalid` is false on
`cfgOkA` while externally supplied errors are present. -/
theorem C10_setErrors_frame (cfg : Config V) (s : State V)
    (next : List (String × String)) :
    (setErrors s next).errors = fromList next ∧
    isInvalid cfg (setErrors s next) = isInvalid cfg s ∧
    (∀ s2 : State V, s2.values = s.values → s2.hasValidatedOnce = s.hasValidatedOnce →
      isInvalid cfg s2 = isInvalid cfg s) ∧
    (isInvalid cfgOkA (setErrors (initState cfgOkA) [("a", "boom")]) = false ∧
      (setErrors (initState cfgOkA) [("a", "boom")]).errors ≠ []) := by
  refine ⟨rfl, rfl, ?_, by decide, by decide⟩
  intro s2 hv hvo
  unfold isInvalid parseResult
  rw [hv, hvo]

/-- C10 witness: supplying an external error on the fresh `cfgOkA` form
leaves `isInvalid` exactly what it was. -/
theorem C10_witness :
    isInvalid cfgOkA (setErrors (initState cfgOkA) [("a", "boom")]) =
      isInvalid cfgOkA (initState cfgOkA) :=
  (C10_setErrors_frame cfgOkA (initState cfgOkA) [("a", "boom")]).2.2.1
    (setErrors (initState cfgOkA) [("a", "boom")]) rfl rfl

end VueForm

